import Mathlib

/-!
# Verification of the Multi-Level Interview Agent scoring pipeline

Shallow embedding of the scoring pipeline of the repository:
* `level1_screen`   (Level1screening.py) — lexical signal scorer,
* `level2_technical` (Level2technical.py) — technical answer scorer,
* `level3_scenario` (Level3scenario.py) — scenario reasoning scorer,
* the SQLite persistence layer (db.py, bundled in Level3scenario.py) as a
  state-passing model, and
* `evaluate_candidate` (pipeline.py) — the orchestrator.

Real-valued arithmetic in the sources (Python floats) is modelled over `ℝ`
where transcendental functions occur (Level 1's entropy) and over `ℚ` where
the computation is rational (Levels 2 and 3).  `round(x, k)` is modelled as
rounding `x * 10^k` to the nearest integer (ties half-up; no claim below
depends on the tie-breaking convention).
-/

set_option maxRecDepth 20000

/-- A fragment of Python runtime values, enough for the dynamic scorer
`isinstance` checks and dictionary handling.  A Python `dict` is modelled as
an association list in insertion order (keys distinct in any value that
actually arises from a Python `dict` literal). -/
inductive PyVal where
  | str (s : String)
  | bool (b : Bool)
  | int (n : Int)
  | dict (entries : List (String × PyVal))
  | none

/-- Python truthiness (`bool(v)`) for the modelled value fragment. -/
def PyVal.truthy : PyVal → Bool
  | .str s => !(s == "")
  | .bool b => b
  | .int n => !(n == 0)
  | .dict m => !m.isEmpty
  | .none => false

/-! ## Level 1 — Level1screening.py -/

/-- A word character for the regex `\w` (ASCII fragment): alphanumeric or
underscore. -/
def isWordChar (c : Char) : Bool := c.isAlphanum || c == '_'

/-- Helper for `re.findall(r"\w+", ·)`: splits a character list into the
maximal runs of word characters.  `acc` holds the current run, reversed. -/
def tokenizeAux : List Char → List Char → List (List Char)
  | [], acc => if acc.isEmpty then [] else [acc.reverse]
  | c :: cs, acc =>
    if isWordChar c then tokenizeAux cs (c :: acc)
    else if acc.isEmpty then tokenizeAux cs []
    else acc.reverse :: tokenizeAux cs []

/-- Source: `re.findall(r"\w+", text.lower())`. -/
def tokens (text : String) : List String :=
  (tokenizeAux (text.data.map Char.toLower) []).map fun cs => String.mk cs

/-- The values of `Counter(tokens)`: one count per distinct token. -/
def countVals (ts : List String) : List ℕ := ts.dedup.map fun t => ts.count t

/-- Source: `total = sum(counts.values())`. -/
def countTotal (ts : List String) : ℕ := (countVals ts).sum

/-- Source: `entropy = -sum((c / total) * math.log(c / total) for c in counts.values())`. -/
noncomputable def l1Entropy (ts : List String) : ℝ :=
  -(((countVals ts).map fun c : ℕ =>
      ((c : ℝ) / (countTotal ts : ℝ)) * Real.log ((c : ℝ) / (countTotal ts : ℝ))).sum)

/-- The unrounded Level 1 score
`100 * (0.55 * min(entropy_norm, 1.0) + 0.45 * redundancy)`. -/
noncomputable def l1RawScore (ts : List String) : ℝ :=
  100 * (0.55 * min (l1Entropy ts / Real.log (countTotal ts : ℝ)) 1 +
         0.45 * ((ts.dedup.length : ℝ) / (countTotal ts : ℝ)))

/-- Python `round(x, 2)` over the real model (ties half-up). -/
noncomputable def round2 (x : ℝ) : ℝ := ((round (x * 100) : ℤ) : ℝ) / 100

/-- The result dict `{pass, score, reason}` of Level 1. -/
structure L1Result where
  pass : Bool
  score : ℝ
  reason : String

/-- Function `level1_screen` from Level1screening.py. -/
noncomputable def level1_screen : PyVal → L1Result
  | .str text =>
    if (tokens text).length < 30 then ⟨false, 0, "Too short"⟩
    else
      ⟨decide (60 ≤ l1RawScore (tokens text)),
       round2 (l1RawScore (tokens text)),
       if 60 ≤ l1RawScore (tokens text) then "OK" else "Low signal"⟩
  | _ => ⟨false, 0, "Invalid input"⟩

/-! ## Level 2 — Level2technical.py -/

/-- The result dict `{pass, prob_pass, reason}` of Level 2. -/
structure L2Result where
  pass : Bool
  prob_pass : ℚ
  reason : String
deriving DecidableEq

/-- Python dict lookup on the association-list model (first matching key). -/
def lookupKey (m : List (String × PyVal)) (k : String) : Option PyVal :=
  (m.find? fun kv => kv.1 == k).map fun kv => kv.2

/-- The gradable entries of the answers value, in iteration order: for each
value `v` of the mapping that is itself a dict containing a `"correct"` key,
the truthiness of `v["correct"]`.  Anything else contributes nothing. -/
def gradables : PyVal → List Bool
  | .dict m => m.filterMap fun kv =>
      match kv.2 with
      | .dict inner => (lookupKey inner "correct").map PyVal.truthy
      | _ => Option.none
  | _ => []

/-- Python `round(q, 3)` over the rational model (ties half-up). -/
def round3 (q : ℚ) : ℚ := ((round (q * 1000) : ℤ) : ℚ) / 1000

/-- Function `level2_technical` from Level2technical.py. -/
def level2_technical (answers : PyVal) : L2Result :=
  match answers with
  | .dict m =>
    if m.isEmpty then ⟨false, 0, "No answers"⟩
    else
      let gs := gradables (.dict m)
      if gs.length = 0 then ⟨false, 0, "Malformed input"⟩
      else
        let prob : ℚ := (gs.count true : ℚ) / (gs.length : ℚ)
        ⟨decide ((1 : ℚ)/2 ≤ prob), round3 prob,
         if (1 : ℚ)/2 ≤ prob then "OK" else "Weak technical fundamentals"⟩
  | _ => ⟨false, 0, "No answers"⟩

/-- The gradable correct/total ratio of an answers value (0 when nothing is
gradable); the quantity the Level 2 monotonicity claim speaks about. -/
def gradableRatio (v : PyVal) : ℚ :=
  ((gradables v).count true : ℚ) / ((gradables v).length : ℚ)

/-! ## Level 3 — Level3scenario.py (scorer part) -/

/-- The result dict `{pass, score, reason}` of Level 3. -/
structure L3Result where
  pass : Bool
  score : ℚ
  reason : String
deriving DecidableEq

/-- Does `hay` start with `pat`? -/
def startsWithSeq : List Char → List Char → Bool
  | _, [] => true
  | [], _ :: _ => false
  | c :: cs, p :: ps => c == p && startsWithSeq cs ps

/-- Does `pat` occur contiguously inside `hay`? -/
def containsSeq : List Char → List Char → Bool
  | [], pat => pat.isEmpty
  | c :: cs, pat => startsWithSeq (c :: cs) pat || containsSeq cs pat

/-- Python substring test `kw in s`. -/
def strContains (s kw : String) : Bool := containsSeq s.data kw.data

/-- A separator character of the regex `[.\n]+`. -/
def isSegSep (c : Char) : Bool := c == '.' || c == '\n'

/-- Helper for `re.split(r"[.\n]+", ·)`: cuts at every separator character.
The collapsing `+` quantifier only affects empty pieces, which the strip
filter below discards either way.  `acc` holds the current piece, reversed. -/
def splitSegsAux : List Char → List Char → List (List Char)
  | [], acc => [acc.reverse]
  | c :: cs, acc =>
    if isSegSep c then acc.reverse :: splitSegsAux cs []
    else splitSegsAux cs (c :: acc)

/-- Python `str.strip()` (ASCII whitespace fragment). -/
def pyStrip (cs : List Char) : List Char :=
  ((cs.dropWhile Char.isWhitespace).reverse.dropWhile Char.isWhitespace).reverse

/-- Source: `steps = [s.strip().lower() for s in re.split(r"[.\n]+", answer) if s.strip()]`. -/
def steps (answer : String) : List String :=
  ((splitSegsAux answer.data []).map pyStrip).filterMap fun cs =>
    if cs.isEmpty then Option.none else Option.some (String.mk (cs.map Char.toLower))

/-- The `PHASES` table, in insertion order. -/
def PHASES : List (String × List String) :=
  [("diagnose", ["investigate", "analyze", "identify"]),
   ("contain", ["rollback", "mitigate", "reduce"]),
   ("fix", ["fix", "resolve", "repair"]),
   ("prevent", ["monitor", "prevent", "automate"])]

/-- The `DIMENSIONS` table, in insertion order. -/
def DIMENSIONS : List (String × List String) :=
  [("risk", ["risk", "impact"]),
   ("cost", ["cost", "budget"]),
   ("time", ["downtime", "delay"]),
   ("reliability", ["uptime", "stability"])]

/-- Source list `phase_hits`: for every step, every phase whose keyword set hits it
(appended once per step per phase, in table order). -/
def phaseHits (answer : String) : List String :=
  (steps answer).flatMap fun step =>
    (PHASES.filter fun pk => pk.2.any fun k => strContains step k).map fun pk => pk.1

/-- Source list `dim_hits`: for every step, the set of dimensions whose keyword set hits
it, kept only when non-empty (a set per step, modelled as the duplicate-free
sublist of the table). -/
def dimHits (answer : String) : List (List String) :=
  ((steps answer).map fun step =>
    (DIMENSIONS.filter fun dk => dk.2.any fun k => strContains step k).map fun dk => dk.1
  ).filter fun dims => !dims.isEmpty

/-- Source: `flow = len(set(phase_hits)) / len(PHASES)`. -/
def flowQ (answer : String) : ℚ :=
  ((phaseHits answer).dedup.length : ℚ) / (PHASES.length : ℚ)

/-- Source: `tradeoff = sum(len(d) for d in dim_hits) / (len(dim_hits) * len(DIMENSIONS))
if dim_hits else 0`. -/
def tradeoffQ (answer : String) : ℚ :=
  if (dimHits answer).isEmpty then 0
  else (((dimHits answer).map List.length).sum : ℚ) /
       (((dimHits answer).length * DIMENSIONS.length : ℕ) : ℚ)

/-- Source: `flat_dims = [d for ds in dim_hits for d in ds]`. -/
def flatDims (answer : String) : List String := (dimHits answer).flatten

/-- Source: `dominance = max(Counter(flat_dims).values()) / len(flat_dims) if flat_dims
else 1.0`. -/
def dominanceQ (answer : String) : ℚ :=
  if (flatDims answer).isEmpty then 1
  else ((((flatDims answer).dedup.map fun d => (flatDims answer).count d).foldr max 0 : ℕ) : ℚ) /
       (((flatDims answer).length : ℕ) : ℚ)

/-- Source: `stability = 1 - dominance`. -/
def stabilityQ (answer : String) : ℚ := 1 - dominanceQ answer

/-- The unrounded Level 3 score
`100 * (0.45 * flow + 0.35 * tradeoff + 0.20 * stability)`. -/
def l3RawScore (answer : String) : ℚ :=
  100 * (0.45 * flowQ answer + 0.35 * tradeoffQ answer + 0.20 * stabilityQ answer)

/-- Python `round(q, 2)` over the rational model (ties half-up). -/
def round2q (q : ℚ) : ℚ := ((round (q * 100) : ℤ) : ℚ) / 100

/-- Function `level3_scenario` from Level3scenario.py. -/
def level3_scenario : PyVal → L3Result
  | .str answer =>
    if (steps answer).length < 2 then ⟨false, 0, "Too shallow"⟩
    else
      ⟨decide ((75 : ℚ) ≤ l3RawScore answer),
       round2q (l3RawScore answer),
       if (75 : ℚ) ≤ l3RawScore answer then "OK" else "Weak scenario reasoning"⟩
  | _ => ⟨false, 0, "Invalid input"⟩

/-! ## Persistence layer — db.py (bundled in Level3scenario.py)

The SQLite store is modelled as an explicit state.  Fresh ids (`uuid4`) and
timestamps (`utcnow`) are modelled by one monotone counter `nextId`: every
insert consumes a counter value as its id and records the counter as its
creation time.  The serialized diagnostic payloads (`metrics_json`,
`features_json`) are not modelled: no claim depends on them. -/

/-- A row of the `candidates` table. -/
structure CandidateRow where
  candidate_id : Nat
  full_name : String
  email : String
  phone : String
  role : String
  created_at : Nat

/-- A row of the `sessions` table. -/
structure SessionRow where
  session_id : Nat
  candidate_id : Nat
  status : String
  final_score : Option ℝ
  final_decision : Option String
  created_at : Nat
  completed_at : Option Nat

/-- A row of the `round_results` table. -/
structure RoundRow where
  result_id : Nat
  session_id : Nat
  round_no : Nat
  owner : String
  question_id : Option String
  question : String
  answer : PyVal
  raw_score : ℝ
  score : ℝ
  passed : Bool
  threshold : ℝ
  violations : List String
  entropy_value : Option ℝ
  created_at : Nat

/-- The persistent store. -/
structure DBState where
  nextId : Nat
  candidates : List CandidateRow
  sessions : List SessionRow
  rounds : List RoundRow

/-- Function `upsert_candidate`: with an explicit id, update in place when present and
insert otherwise; without one, insert under a fresh id. -/
def upsert_candidate (st : DBState) (full_name email phone role : String)
    (candidate_id : Option Nat) : Nat × DBState :=
  match candidate_id with
  | Option.some cid =>
    if st.candidates.any fun c => c.candidate_id == cid then
      (cid, { st with candidates := st.candidates.map fun c =>
        if c.candidate_id == cid then
          { c with full_name := full_name, email := email, phone := phone, role := role }
        else c })
    else
      (cid, { st with
              nextId := st.nextId + 1
              candidates := st.candidates ++ [⟨cid, full_name, email, phone, role, st.nextId⟩] })
  | Option.none =>
    (st.nextId, { st with
        nextId := st.nextId + 1
        candidates := st.candidates ++ [⟨st.nextId, full_name, email, phone, role, st.nextId⟩] })

/-- Function `create_session`: insert a fresh session with status `IN_PROGRESS` and
null final score, final decision and completion time. -/
def create_session (st : DBState) (cid : Nat) : Nat × DBState :=
  (st.nextId, { st with
      nextId := st.nextId + 1
      sessions := st.sessions ++
        [⟨st.nextId, cid, "IN_PROGRESS", Option.none, Option.none, st.nextId, Option.none⟩] })

/-- Function `save_round_result`: append one immutable round-result row (`question_id`
null, `violations` empty, `entropy_value` null, as in the calls made by pipeline.py). -/
def save_round_result (st : DBState) (session_id round_no : Nat) (owner question : String)
    (answer : PyVal) (raw_score score : ℝ) (passed : Bool) (threshold : ℝ) : Nat × DBState :=
  (st.nextId, { st with
      nextId := st.nextId + 1
      rounds := st.rounds ++
        [⟨st.nextId, session_id, round_no, owner, Option.none, question, answer,
          raw_score, score, passed, threshold, [], Option.none, st.nextId⟩] })

/-- Function `complete_session`: set status `COMPLETED`, the final score and decision,
and a non-null completion time on every session row with the given id. -/
def complete_session (st : DBState) (session_id : Nat) (final_score : ℝ)
    (final_decision : String) : DBState :=
  { st with sessions := st.sessions.map fun s =>
      if s.session_id == session_id then
        { s with
          status := "COMPLETED"
          final_score := Option.some final_score
          final_decision := Option.some final_decision
          completed_at := Option.some st.nextId }
      else s }

/-- Function `get_session`: the session row with the given id, if any. -/
def getSession (st : DBState) (sid : Nat) : Option SessionRow :=
  st.sessions.find? fun s => s.session_id == sid

/-- The round-result rows persisted for a session, in insertion order (for
rows written by one `evaluate_candidate` run this coincides with the db.py
`ORDER BY round_no ASC, created_at ASC`). -/
def roundsFor (st : DBState) (sid : Nat) : List RoundRow :=
  st.rounds.filter fun r => r.session_id == sid

/-- Well-formedness of the store: every session id mentioned by a session or
round-result row was allocated below the id counter.  Every reachable state
satisfies this; it makes counter-allocated ids genuinely fresh. -/
def WF (st : DBState) : Prop :=
  (∀ s ∈ st.sessions, s.session_id < st.nextId) ∧
  (∀ r ∈ st.rounds, r.session_id < st.nextId)

/-- One call of the public write surface of the store (for the invariant claim). -/
inductive DBOp where
  | upsert (full_name email phone role : String) (cid : Option Nat)
  | createSession (cid : Nat)
  | saveRound (sid round_no : Nat) (owner question : String) (answer : PyVal)
      (raw score : ℝ) (passed : Bool) (threshold : ℝ)
  | completeSession (sid : Nat) (score : ℝ) (dec : String)

/-- Apply one store operation to the state. -/
def applyOp (st : DBState) : DBOp → DBState
  | .upsert fn em ph ro cid => (upsert_candidate st fn em ph ro cid).2
  | .createSession cid => (create_session st cid).2
  | .saveRound sid rn ow q a r s p t => (save_round_result st sid rn ow q a r s p t).2
  | .completeSession sid sc d => complete_session st sid sc d

/-! ## Orchestrator — pipeline.py -/

/-- The caller-supplied payload (the structure documented in pipeline.py). -/
structure Payload where
  full_name : String
  email : String
  phone : String
  role : String
  resume_text : PyVal
  technical_answers : PyVal
  scenario_answer : PyVal

/-- The dict returned by `evaluate_candidate`; keys absent from a branch
dict are `Option.none`. -/
structure PipeResult where
  final_pass : Bool
  failed_at : Option String
  decision : Option String
  session_id : Nat
  level1 : Option L1Result
  level2 : Option L2Result
  level3 : Option L3Result

/-- Function `evaluate_candidate` from pipeline.py: upsert the candidate, open a fresh
session, then run the three levels in order, persisting a round row per
evaluated level and short-circuiting on the first failure.  (The Python
`str(technical_answers)` serialization of the round-2 answer column is
modelled by storing the value itself.) -/
noncomputable def evaluate_candidate (st : DBState) (p : Payload) : DBState × PipeResult :=
  let cidSt := upsert_candidate st p.full_name p.email p.phone p.role Option.none
  let sidSt := create_session cidSt.2 cidSt.1
  let sid := sidSt.1
  let l1 := level1_screen p.resume_text
  let st1 := (save_round_result sidSt.2 sid 1 "Interviewer L1" "Resume Screening"
      p.resume_text l1.score l1.score l1.pass 60).2
  if l1.pass = false then
    (complete_session st1 sid l1.score "REJECT",
     ⟨false, Option.some "level1", Option.none, sid, Option.some l1, Option.none, Option.none⟩)
  else
    let l2 := level2_technical p.technical_answers
    let st2 := (save_round_result st1 sid 2 "Interviewer L2" "Technical Evaluation"
        p.technical_answers ((l2.prob_pass : ℝ) * 100) ((l2.prob_pass : ℝ) * 100) l2.pass 50).2
    if l2.pass = false then
      (complete_session st2 sid ((l2.prob_pass : ℝ) * 100) "REJECT",
       ⟨false, Option.some "level2", Option.none, sid,
        Option.some l1, Option.some l2, Option.none⟩)
    else
      let l3 := level3_scenario p.scenario_answer
      let st3 := (save_round_result st2 sid 3 "Interviewer L3" "Scenario-Based Reasoning"
          p.scenario_answer (l3.score : ℝ) (l3.score : ℝ) l3.pass 75).2
      (complete_session st3 sid (l3.score : ℝ) (if l3.pass then "HIRE" else "HOLD"),
       ⟨l3.pass, Option.none, Option.some (if l3.pass then "HIRE" else "HOLD"), sid,
        Option.some l1, Option.some l2, Option.some l3⟩)

/-! ## Spec-side restatement of the Level 1 formula (for the claim about it)

These definitions follow the wording of the specification — Shannon entropy of the
token frequency distribution, normalized by `log(total token count)`, with
`redundancy = distinct_token_count / total_token_count` — to be compared with
the source-derived `l1RawScore` above. -/

/-- The relative frequency of token `t` in the token list. -/
noncomputable def tokenFreq (ts : List String) (t : String) : ℝ :=
  (ts.count t : ℝ) / (ts.length : ℝ)

/-- Shannon entropy `H = -Σ_t p(t) log p(t)` over the token frequency
distribution (one summand per distinct token). -/
noncomputable def shannonEntropy (ts : List String) : ℝ :=
  -((ts.dedup.map fun t => tokenFreq ts t * Real.log (tokenFreq ts t)).sum)

/-- The Level 1 score as the specification states it:
`100 * (0.55 * min(H / log(total), 1.0) + 0.45 * distinct / total)` with
`total` the token count. -/
noncomputable def specL1Score (ts : List String) : ℝ :=
  100 * (0.55 * min (shannonEntropy ts / Real.log (ts.length : ℝ)) 1 +
         0.45 * ((ts.dedup.length : ℝ) / (ts.length : ℝ)))

/-! ## Concrete inputs used by the claims -/

/-- A token multiset presented as (token, multiplicity) pairs. -/
def expandSpec (sp : List (String × ℕ)) : List String :=
  sp.flatMap fun p => List.replicate p.2 p.1

/-- The characters of the space-separated join of a token list. -/
def joinTokens : List String → List Char
  | [] => []
  | [t] => t.data
  | t :: ts => t.data ++ ' ' :: joinTokens ts

/-- A well-behaved token: non-empty, made of word characters, and fixed by
lower-casing (so that tokenizing its space-separated join recovers it). -/
def goodTok (t : String) : Bool :=
  !t.data.isEmpty && t.data.all fun c => isWordChar c && (c.toLower == c)

def cxSingles : List String :=
  ["s0", "s1", "s2", "s3", "s4", "s5", "s6", "s7", "s8", "s9", "s10", "s11", "s12", "s13",
   "s14", "s15", "s16", "s17", "s18", "s19", "s20", "s21", "s22", "s23", "s24", "s25", "s26",
   "s27", "s28", "s29", "s30", "s31", "s32", "s33"]

def cxDoubles : List String :=
  ["d0", "d1", "d2", "d3", "d4", "d5", "d6", "d7", "d8", "d9", "d10", "d11", "d12", "d13",
   "d14", "d15", "d16", "d17", "d18", "d19", "d20", "d21", "d22", "d23", "d24", "d25", "d26",
   "d27", "d28", "d29", "d30", "d31", "d32", "d33", "d34", "d35", "d36", "d37", "d38", "d39",
   "d40", "d41", "d42"]

def cxQuads : List String :=
  ["q0", "q1", "q2", "q3", "q4", "q5", "q6", "q7", "q8", "q9", "q10", "q11", "q12", "q13",
   "q14", "q15", "q16", "q17", "q18", "q19", "q20", "q21", "q22", "q23", "q24", "q25", "q26",
   "q27", "q28", "q29", "q30", "q31", "q32", "q33", "q34", "q35", "q36", "q37", "q38", "q39",
   "q40", "q41", "q42", "q43", "q44", "q45", "q46", "q47", "q48", "q49", "q50", "q51", "q52",
   "q53", "q54", "q55", "q56", "q57", "q58", "q59", "q60", "q61", "q62", "q63", "q64", "q65",
   "q66", "q67", "q68", "q69", "q70", "q71", "q72", "q73", "q74", "q75", "q76", "q77", "q78",
   "q79", "q80", "q81", "q82", "q83", "q84", "q85", "q86", "q87", "q88", "q89", "q90", "q91",
   "q92", "q93", "q94", "q95", "q96", "q97"]

/-- The multiplicity table of the Level 1 boundary input: 34 tokens appearing
once, 43 appearing twice, 98 appearing four times — 512 tokens, 175 distinct. -/
def cxSpec : List (String × ℕ) :=
  (cxSingles.map fun t => (t, 1)) ++ (cxDoubles.map fun t => (t, 2)) ++
  (cxQuads.map fun t => (t, 4))

/-- The token list of the Level 1 boundary input. -/
def cxTokens : List String := expandSpec cxSpec

/-- The Level 1 boundary input itself: its unrounded score is
276465/4608 ≈ 59.9967, which rounds to 60.00. -/
def cxStr : String := String.mk (joinTokens cxTokens)

/-- Thirty distinct words (the shape of end-to-end example 1 in the spec). -/
def w30Names : List String :=
  ["alpha", "bravo", "charlie", "delta", "echo", "foxtrot", "golf", "hotel", "india",
   "juliet", "kilo", "lima", "mike", "november", "oscar", "papa", "quebec", "romeo",
   "sierra", "tango", "uniform", "victor", "whiskey", "xray", "yankee", "zulu",
   "red", "green", "blue", "gold"]

/-- A resume text of 30 distinct words; Level 1 scores it 100.0. -/
def w30Str : String := String.mk (joinTokens w30Names)

/-- The mapping `{"q1": {"correct": true}, "q2": {"correct": false}}` — end-to-end
example 2 of the spec. -/
def ex2Answers : PyVal :=
  .dict [("q1", .dict [("correct", .bool true)]), ("q2", .dict [("correct", .bool false)])]

/-- The entries of an answers mapping with `n` questions of which the first
`k` are correct (keys are the decimal indices, hence distinct). -/
def mkEntries (n k : ℕ) : List (String × PyVal) :=
  (List.range n).map fun i => (toString i, .dict [("correct", .bool (decide (i < k)))])

/-- The answers mapping built from `mkEntries`. -/
def mkAnswers (n k : ℕ) : PyVal := .dict (mkEntries n k)

/-! # Theorems

## Generic list lemmas -/

theorem sum_map_indicator {α : Type} [DecidableEq α] (D : List α) (a : α) :
    (D.map fun t => if t = a then 1 else 0).sum = D.count a := by
  induction D with
  | nil => simp
  | cons b D ih =>
    by_cases hba : b = a <;> simp [List.count_cons, hba, ih, Nat.add_comm]

/-- Identity `sum(counts.values()) = len(tokens)`: the counter values of the distinct
tokens sum to the total token count. -/
theorem countTotal_eq_length (ts : List String) : countTotal ts = ts.length := by
  induction ts with
  | nil => simp [countTotal, countVals]
  | cons a l ih =>
    unfold countTotal countVals at ih ⊢
    by_cases hal : a ∈ l
    · rw [List.dedup_cons_of_mem hal]
      have hcong : (l.dedup.map fun t => (a :: l).count t) =
          l.dedup.map fun t => l.count t + if t = a then 1 else 0 := by
        apply List.map_congr_left
        intro t _
        rw [List.count_cons]
        by_cases hta : t = a
        · simp [hta]
        · simp [hta, Ne.symm hta]
      rw [hcong]
      have hsplit : (l.dedup.map fun t => l.count t + if t = a then 1 else 0).sum =
          (l.dedup.map fun t => l.count t).sum +
          (l.dedup.map fun t => if t = a then 1 else 0).sum := by
        induction l.dedup with
        | nil => simp
        | cons x xs ihx => simp [ihx]; omega
      rw [hsplit, ih, sum_map_indicator, List.count_dedup]
      simp [hal]
    · rw [List.dedup_cons_of_not_mem hal]
      have hcount : (a :: l).count a = l.count a + 1 := by simp [List.count_cons]
      have hzero : l.count a = 0 := List.count_eq_zero.2 hal
      have hcong : (l.dedup.map fun t => (a :: l).count t) =
          l.dedup.map fun t => l.count t := by
        apply List.map_congr_left
        intro t ht
        have : t ≠ a := by
          intro h
          exact hal (h ▸ List.mem_dedup.1 ht)
        simp [List.count_cons, this]
      simp only [List.map_cons, List.sum_cons, hcount, hzero, hcong, ih]
      simp [Nat.add_comm]

/-! ## Tokenizer lemmas: tokenizing a space-separated join of well-behaved
tokens recovers them -/

theorem tokenizeAux_word_run (w rest acc : List Char) (hw : ∀ c ∈ w, isWordChar c = true) :
    tokenizeAux (w ++ rest) acc = tokenizeAux rest (w.reverse ++ acc) := by
  induction w generalizing acc with
  | nil => simp
  | cons c w ih =>
    have hc : isWordChar c = true := hw c (List.mem_cons_self c w)
    simp only [List.cons_append, tokenizeAux, hc, if_pos, List.append_eq]
    rw [ih _ fun d hd => hw d (List.mem_cons_of_mem c hd)]
    simp

theorem tokenizeAux_join (L : List String)
    (hne : ∀ t ∈ L, t.data ≠ [])
    (hword : ∀ t ∈ L, ∀ c ∈ t.data, isWordChar c = true) :
    tokenizeAux (joinTokens L) [] = L.map String.data := by
  induction L with
  | nil => simp [joinTokens, tokenizeAux]
  | cons t L ih =>
    match L, ih with
    | [], _ =>
      have := hne t (List.mem_cons_self t [])
      show tokenizeAux t.data [] = [t.data]
      rw [show t.data = t.data ++ [] by simp,
          tokenizeAux_word_run _ _ _ (hword t (List.mem_cons_self t []))]
      simp [tokenizeAux, this]
    | u :: L, ih =>
      show tokenizeAux (t.data ++ ' ' :: joinTokens (u :: L)) [] = t.data :: _
      rw [tokenizeAux_word_run _ _ _ (hword t (List.mem_cons_self t _))]
      have hsp : isWordChar ' ' = false := by decide
      have hnet : t.data ≠ [] := hne t (List.mem_cons_self t _)
      have hacc : (t.data.reverse ++ []).isEmpty = false := by
        simp [List.isEmpty_iff, hnet]
      simp only [tokenizeAux, hsp, Bool.false_eq_true, if_neg, hacc, if_false]
      rw [ih (fun s hs => hne s (List.mem_cons_of_mem t hs))
            (fun s hs => hword s (List.mem_cons_of_mem t hs))]
      simp

theorem mem_joinTokens (L : List String) (c : Char) (hc : c ∈ joinTokens L) :
    c = ' ' ∨ ∃ t ∈ L, c ∈ t.data := by
  induction L with
  | nil => simp [joinTokens] at hc
  | cons t L ih =>
    match L, ih with
    | [], _ =>
      right
      exact ⟨t, List.mem_cons_self t [], hc⟩
    | u :: L, ih =>
      simp only [joinTokens, List.mem_append, List.mem_cons] at hc
      rcases hc with h | h | h
      · right; exact ⟨t, List.mem_cons_self t _, h⟩
      · left; exact h
      · rcases ih h with h | ⟨s, hs, hcs⟩
        · left; exact h
        · right; exact ⟨s, List.mem_cons_of_mem t hs, hcs⟩

/-- Tokenizing the space-separated join of well-behaved tokens gives back
exactly those tokens. -/
theorem tokens_join (L : List String) (hgood : ∀ t ∈ L, goodTok t = true) :
    tokens (String.mk (joinTokens L)) = L := by
  have hne : ∀ t ∈ L, t.data ≠ [] := by
    intro t ht
    have := hgood t ht
    simp only [goodTok, Bool.and_eq_true, Bool.not_eq_true'] at this
    simpa [List.isEmpty_iff] using this.1
  have hword : ∀ t ∈ L, ∀ c ∈ t.data, isWordChar c = true := by
    intro t ht c hc
    have := hgood t ht
    simp only [goodTok, Bool.and_eq_true, List.all_eq_true] at this
    exact (this.2 c hc).1
  have hlower : ∀ t ∈ L, ∀ c ∈ t.data, c.toLower = c := by
    intro t ht c hc
    have := hgood t ht
    simp only [goodTok, Bool.and_eq_true, List.all_eq_true] at this
    exact beq_iff_eq.1 (this.2 c hc).2
  have hmap : (joinTokens L).map Char.toLower = joinTokens L := by
    have : ∀ c ∈ joinTokens L, c.toLower = c := by
      intro c hc
      rcases mem_joinTokens L c hc with h | ⟨t, ht, hct⟩
      · rw [h]; decide
      · exact hlower t ht c hct
    rw [List.map_congr_left fun c hc => this c hc]
    simp
  show (tokenizeAux ((String.mk (joinTokens L)).data.map Char.toLower) []).map _ = L
  rw [show (String.mk (joinTokens L)).data = joinTokens L from rfl, hmap,
      tokenizeAux_join L hne hword, List.map_map]
  exact (List.map_congr_left (fun t _ => (rfl : String.mk t.data = t))).trans (by simp)

/-! ## Multiplicity-table lemmas for `expandSpec` -/

theorem mem_expandSpec_weak (sp : List (String × ℕ)) (t : String)
    (h : t ∈ expandSpec sp) : t ∈ sp.map Prod.fst := by
  simp only [expandSpec, List.mem_flatMap] at h
  rcases h with ⟨p, hp, hrep⟩
  rw [List.eq_of_mem_replicate hrep]
  exact List.mem_map_of_mem Prod.fst hp

theorem mem_expandSpec (sp : List (String × ℕ)) (hpos : ∀ p ∈ sp, 0 < p.2) (t : String) :
    t ∈ expandSpec sp ↔ t ∈ sp.map Prod.fst := by
  constructor
  · exact mem_expandSpec_weak sp t
  · intro h
    rcases List.mem_map.1 h with ⟨p, hp, hfst⟩
    simp only [expandSpec, List.mem_flatMap]
    exact ⟨p, hp, hfst ▸ List.mem_replicate.2 ⟨(hpos p hp).ne', rfl⟩⟩

theorem count_expandSpec (sp : List (String × ℕ)) (hnd : (sp.map Prod.fst).Nodup) :
    ∀ p ∈ sp, (expandSpec sp).count p.1 = p.2 := by
  induction sp with
  | nil => simp
  | cons q sp ih =>
    have hnd' : (sp.map Prod.fst).Nodup := (List.nodup_cons.1 hnd).2
    have hqn : q.1 ∉ sp.map Prod.fst := (List.nodup_cons.1 hnd).1
    intro p hp
    have hexp : expandSpec (q :: sp) = List.replicate q.2 q.1 ++ expandSpec sp := by
      simp [expandSpec]
    rcases List.mem_cons.1 hp with hpq | hpsp
    · subst hpq
      rw [hexp, List.count_append, List.count_replicate]
      have : p.1 ∉ expandSpec sp := fun h => hqn (mem_expandSpec_weak sp p.1 h)
      rw [List.count_eq_zero.2 this]
      simp
    · have hne : p.1 ≠ q.1 := by
        intro h
        exact hqn (h ▸ List.mem_map_of_mem Prod.fst hpsp)
      rw [hexp, List.count_append, List.count_replicate, ih hnd' p hpsp]
      simp [Ne.symm hne]

theorem length_expandSpec (sp : List (String × ℕ)) :
    (expandSpec sp).length = (sp.map Prod.snd).sum := by
  induction sp with
  | nil => simp [expandSpec]
  | cons q sp ih =>
    simp only [expandSpec, List.flatMap_cons, List.length_append, List.length_replicate,
      List.map_cons, List.sum_cons] at ih ⊢
    rw [ih]

theorem dedup_perm_expandSpec (sp : List (String × ℕ)) (hnd : (sp.map Prod.fst).Nodup)
    (hpos : ∀ p ∈ sp, 0 < p.2) :
    (expandSpec sp).dedup.Perm (sp.map Prod.fst) := by
  refine (List.perm_ext_iff_of_nodup (List.nodup_dedup _) hnd).2 fun t => ?_
  rw [List.mem_dedup, mem_expandSpec sp hpos t]

theorem dedup_length_expandSpec (sp : List (String × ℕ)) (hnd : (sp.map Prod.fst).Nodup)
    (hpos : ∀ p ∈ sp, 0 < p.2) :
    (expandSpec sp).dedup.length = sp.length := by
  rw [(dedup_perm_expandSpec sp hnd hpos).length_eq, List.length_map]

/-- Sums of per-distinct-token quantities over the deduplicated expansion
reduce to sums over the multiplicity table. -/
theorem sum_dedup_expandSpec (sp : List (String × ℕ)) (hnd : (sp.map Prod.fst).Nodup)
    (hpos : ∀ p ∈ sp, 0 < p.2) (g : ℕ → ℝ) :
    (((expandSpec sp).dedup.map fun t => g ((expandSpec sp).count t)).sum) =
      (sp.map fun p => g p.2).sum := by
  rw [((dedup_perm_expandSpec sp hnd hpos).map fun t => g ((expandSpec sp).count t)).sum_eq]
  rw [List.map_map]
  exact congrArg List.sum
    (List.map_congr_left fun p hp => congrArg g (count_expandSpec sp hnd p hp))

/-! ## Level 1: code formula vs. spec formula, and concrete evaluations -/

/-- The source computation of the Level 1 score agrees with the
formula of the specification (in particular, the counter-value total it divides by
is the token count). -/
theorem l1RawScore_eq_spec (ts : List String) : l1RawScore ts = specL1Score ts := by
  unfold l1RawScore specL1Score l1Entropy shannonEntropy tokenFreq countVals
  rw [countTotal_eq_length, List.map_map]
  rfl

theorem cx_tokens_eq : tokens cxStr = cxTokens :=
  tokens_join cxTokens (List.all_eq_true.1 (by decide))

theorem cx_nodup : (cxSpec.map Prod.fst).Nodup := by decide

theorem cx_pos : ∀ p ∈ cxSpec, 0 < p.2 := by decide

theorem cx_countTotal : countTotal cxTokens = 512 := by
  rw [countTotal_eq_length]
  decide

theorem log512 : Real.log 512 = 9 * Real.log 2 := by
  rw [show (512 : ℝ) = 2 ^ 9 by norm_num, Real.log_pow]
  push_cast
  ring

theorem cx_entropy : l1Entropy cxTokens = (3738 / 512) * Real.log 2 := by
  unfold l1Entropy countVals
  rw [cx_countTotal, List.map_map]
  rw [show cxTokens = expandSpec cxSpec from rfl]
  simp only [Function.comp_def]
  rw [sum_dedup_expandSpec cxSpec cx_nodup cx_pos
      (fun c : ℕ => ((c : ℝ) / ((512 : ℕ) : ℝ)) * Real.log ((c : ℝ) / ((512 : ℕ) : ℝ)))]
  have hsplit : cxSpec = (cxSingles.map fun t => (t, 1)) ++
      ((cxDoubles.map fun t => (t, 2)) ++ (cxQuads.map fun t => (t, 4))) := by
    simp [cxSpec]
  rw [hsplit, List.map_append, List.map_append, List.sum_append, List.sum_append,
      List.map_map, List.map_map, List.map_map]
  simp only [Function.comp_def, List.map_const', List.sum_replicate]
  have hlen1 : cxSingles.length = 34 := by decide
  have hlen2 : cxDoubles.length = 43 := by decide
  have hlen3 : cxQuads.length = 98 := by decide
  rw [hlen1, hlen2, hlen3]
  have h1 : Real.log ((1 : ℝ) / 512) = -(9 * Real.log 2) := by
    rw [Real.log_div one_ne_zero (by norm_num), Real.log_one, log512]
    ring
  have h2 : Real.log ((2 : ℝ) / 512) = Real.log 2 - 9 * Real.log 2 := by
    rw [Real.log_div (by norm_num) (by norm_num), log512]
  have h4 : Real.log ((4 : ℝ) / 512) = 2 * Real.log 2 - 9 * Real.log 2 := by
    rw [Real.log_div (by norm_num) (by norm_num), log512,
        show (4 : ℝ) = 2 ^ 2 by norm_num, Real.log_pow]
    push_cast
    ring
  push_cast
  rw [h1, h2, h4]
  ring

theorem cx_dedup_length : cxTokens.dedup.length = 175 := by
  rw [show cxTokens = expandSpec cxSpec from rfl, dedup_length_expandSpec cxSpec cx_nodup cx_pos]
  decide

theorem cx_raw : l1RawScore cxTokens = 276465 / 4608 := by
  unfold l1RawScore
  rw [cx_countTotal, cx_entropy, cx_dedup_length]
  have hL : (0 : ℝ) < Real.log 2 := Real.log_pos one_lt_two
  rw [show ((512 : ℕ) : ℝ) = 512 by norm_num, log512]
  rw [mul_div_mul_right _ _ (ne_of_gt hL)]
  have hmin : min ((3738 : ℝ) / 512 / 9) 1 = 3738 / 4608 := by
    rw [min_eq_left (by norm_num)]
    norm_num
  rw [hmin]
  norm_num

theorem w30_tokens_eq : tokens w30Str = w30Names :=
  tokens_join w30Names (by decide)

theorem w30_expand : expandSpec (w30Names.map fun t => (t, 1)) = w30Names := by decide

theorem w30_nodup : ((w30Names.map fun t => (t, 1)).map Prod.fst).Nodup := by decide

theorem w30_pos : ∀ p ∈ w30Names.map fun t => (t, 1), 0 < p.2 := by decide

theorem w30_countTotal : countTotal w30Names = 30 := by
  rw [countTotal_eq_length]
  decide

theorem w30_entropy : l1Entropy w30Names = Real.log 30 := by
  unfold l1Entropy countVals
  rw [w30_countTotal, List.map_map]
  rw [← w30_expand]
  simp only [Function.comp_def]
  rw [sum_dedup_expandSpec _ w30_nodup w30_pos
      (fun c : ℕ => ((c : ℝ) / ((30 : ℕ) : ℝ)) * Real.log ((c : ℝ) / ((30 : ℕ) : ℝ)))]
  rw [List.map_map]
  simp only [Function.comp_def, List.map_const', List.sum_replicate]
  have h1 : Real.log ((1 : ℝ) / 30) = -Real.log 30 := by
    rw [Real.log_div one_ne_zero (by norm_num), Real.log_one]
    ring
  have hlen : w30Names.length = 30 := by decide
  push_cast
  rw [h1, hlen, nsmul_eq_mul]
  push_cast
  ring

theorem w30_raw : l1RawScore w30Names = 100 := by
  unfold l1RawScore
  rw [w30_countTotal, w30_entropy]
  have hd : w30Names.dedup.length = 30 := by decide
  rw [hd, show ((30 : ℕ) : ℝ) = 30 by norm_num,
      div_self (ne_of_gt (Real.log_pos (by norm_num : (1 : ℝ) < 30)))]
  norm_num

theorem w30_pass : (level1_screen (.str w30Str)).pass = true := by
  have hnot : ¬((tokens w30Str).length < 30) := by
    rw [w30_tokens_eq]
    decide
  simp only [level1_screen]
  rw [if_neg hnot]
  show decide (60 ≤ l1RawScore (tokens w30Str)) = true
  rw [w30_tokens_eq, w30_raw]
  exact decide_eq_true (by norm_num)

/-- C1 (amended): for inputs of at least 30 tokens, the returned score is the
spec formula rounded to two decimals, and `pass` is computed from the score
before rounding. -/
theorem C1_level1_formula (s : String) (h : 30 ≤ (tokens s).length) :
    (level1_screen (.str s)).score = round2 (specL1Score (tokens s)) ∧
    ((level1_screen (.str s)).pass = true ↔ 60 ≤ specL1Score (tokens s)) := by
  have hnot : ¬((tokens s).length < 30) := Nat.not_lt.2 h
  simp only [level1_screen]
  rw [if_neg hnot]
  constructor
  · show round2 (l1RawScore (tokens s)) = round2 (specL1Score (tokens s))
    rw [l1RawScore_eq_spec]
  · show decide (60 ≤ l1RawScore (tokens s)) = true ↔ 60 ≤ specL1Score (tokens s)
    rw [l1RawScore_eq_spec, decide_eq_true_eq]

/-- Witness for the amended C1 at a concrete 30-token input. -/
theorem C1_witness :
    30 ≤ (tokens w30Str).length ∧
    ((level1_screen (.str w30Str)).score = round2 (specL1Score (tokens w30Str)) ∧
     ((level1_screen (.str w30Str)).pass = true ↔ 60 ≤ specL1Score (tokens w30Str))) :=
  have h : 30 ≤ (tokens w30Str).length := by
    rw [w30_tokens_eq]
    decide
  ⟨h, C1_level1_formula w30Str h⟩

/-- C1 as frozen is false: on `cxStr` (512 tokens: 34 once, 43 twice, 98 four
times) the unrounded score is 276465/4608 ≈ 59.9967, so the returned
(rounded) score is 60.00 ≥ 60 while `pass` is `false`. -/
theorem C1_counterexample :
    (level1_screen (.str cxStr)).pass = false ∧ 60 ≤ (level1_screen (.str cxStr)).score := by
  have hnot : ¬((tokens cxStr).length < 30) := by
    rw [cx_tokens_eq]
    decide
  simp only [level1_screen]
  rw [if_neg hnot]
  constructor
  · show decide (60 ≤ l1RawScore (tokens cxStr)) = false
    rw [cx_tokens_eq, cx_raw]
    exact decide_eq_false (by norm_num)
  · show 60 ≤ round2 (l1RawScore (tokens cxStr))
    rw [cx_tokens_eq, cx_raw]
    unfold round2
    have hr : round ((276465 : ℝ) / 4608 * 100) = 6000 := by
      rw [round_eq]
      norm_num
    rw [hr]
    norm_num

/-- C6: fewer than 30 tokens gives exactly the "Too short" failure, and
non-text input gives a non-passing result rather than an exception. -/
theorem C6_soft_fail (s : String) (v : PyVal) (hs : (tokens s).length < 30)
    (hv : ∀ u : String, v ≠ .str u) :
    level1_screen (.str s) = ⟨false, 0, "Too short"⟩ ∧
    (level1_screen v).pass = false ∧ (level1_screen v).score = 0 := by
  refine ⟨?_, ?_⟩
  · simp only [level1_screen]
    rw [if_pos hs]
  · cases v with
    | str u => exact absurd rfl (hv u)
    | bool b => exact ⟨rfl, rfl⟩
    | int n => exact ⟨rfl, rfl⟩
    | dict m => exact ⟨rfl, rfl⟩
    | none => exact ⟨rfl, rfl⟩

/-- Witness for C6 at concrete inputs. -/
theorem C6_witness :
    (tokens "only five words").length < 30 ∧
    (level1_screen (.str "only five words") = ⟨false, 0, "Too short"⟩ ∧
     (level1_screen (.int 7)).pass = false ∧ (level1_screen (.int 7)).score = 0) :=
  have hs : (tokens "only five words").length < 30 := by decide
  ⟨hs, C6_soft_fail "only five words" (.int 7) hs
    (fun u h => PyVal.noConfusion h)⟩

/-! ## Level 2 theorems -/

/-- Evaluation of `level2_technical` on a non-empty mapping with at least one
gradable entry. -/
theorem level2_eval (m : List (String × PyVal)) (hm : m.isEmpty = false)
    (hg : (gradables (.dict m)).length ≠ 0) :
    level2_technical (.dict m) =
      ⟨decide ((1 : ℚ)/2 ≤ gradableRatio (.dict m)), round3 (gradableRatio (.dict m)),
       if (1 : ℚ)/2 ≤ gradableRatio (.dict m) then "OK"
       else "Weak technical fundamentals"⟩ := by
  simp only [level2_technical]
  rw [hm]
  simp only [Bool.false_eq_true, if_false, if_neg hg]
  rfl

/-- Monotonicity of rounding to three decimals. -/
theorem round3_mono {q r : ℚ} (h : q ≤ r) : round3 q ≤ round3 r := by
  unfold round3
  have hr : round (q * 1000) ≤ round (r * 1000) := by
    rw [round_eq, round_eq]
    exact Int.floor_le_floor (by linarith)
  have : ((round (q * 1000) : ℤ) : ℚ) ≤ ((round (r * 1000) : ℤ) : ℚ) := Int.cast_le.2 hr
  linarith

theorem gradables_ex2 : gradables ex2Answers = [true, false] := by decide

theorem ratio_ex2 : gradableRatio ex2Answers = 1/2 := by
  unfold gradableRatio
  rw [gradables_ex2]
  norm_num

/-- C2 (amended): on a non-empty mapping with at least one gradable entry the
returned `prob_pass` is the gradable ratio rounded to three decimals, and
`pass` is computed from the ratio before rounding. -/
theorem C2_level2_formula (m : List (String × PyVal)) (hm : m ≠ [])
    (hg : gradables (.dict m) ≠ []) :
    (level2_technical (.dict m)).prob_pass = round3 (gradableRatio (.dict m)) ∧
    ((level2_technical (.dict m)).pass = true ↔ (1 : ℚ)/2 ≤ gradableRatio (.dict m)) := by
  rw [level2_eval m (by simpa [List.isEmpty_iff] using hm)
      (fun h => hg (List.length_eq_zero.1 h))]
  constructor
  · rfl
  · show decide ((1 : ℚ)/2 ≤ gradableRatio (.dict m)) = true ↔ _
    rw [decide_eq_true_eq]

/-- Witness for the amended C2 at example 2 of the spec, which indeed yields
`prob_pass = 0.5` and `pass = true`. -/
theorem C2_witness :
    (([("q1", PyVal.dict [("correct", PyVal.bool true)]),
       ("q2", PyVal.dict [("correct", PyVal.bool false)])] : List (String × PyVal)) ≠ [] ∧
     gradables ex2Answers ≠ []) ∧
    (level2_technical ex2Answers).prob_pass = round3 (gradableRatio ex2Answers) ∧
    (level2_technical ex2Answers).prob_pass = 1/2 ∧
    (level2_technical ex2Answers).pass = true := by
  have hm : ([("q1", PyVal.dict [("correct", PyVal.bool true)]),
      ("q2", PyVal.dict [("correct", PyVal.bool false)])] : List (String × PyVal)) ≠ [] := by
    simp
  have hg : gradables ex2Answers ≠ [] := by rw [gradables_ex2]; simp
  have h := C2_level2_formula _ hm hg
  rw [show PyVal.dict [("q1", PyVal.dict [("correct", PyVal.bool true)]),
      ("q2", PyVal.dict [("correct", PyVal.bool false)])] = ex2Answers from rfl] at h
  refine ⟨⟨hm, hg⟩, h.1, ?_, ?_⟩
  · rw [h.1, ratio_ex2]
    norm_num [round3, round_eq]
  · exact h.2.mpr (by rw [ratio_ex2])

theorem gradables_big : gradables (mkAnswers 1001 500) =
    (List.range 1001).map fun i => decide (i < 500) := by decide

theorem ratio_big : gradableRatio (mkAnswers 1001 500) = 500/1001 := by
  unfold gradableRatio
  rw [gradables_big]
  have hc : (((List.range 1001).map fun i => decide (i < 500)).count true) = 500 := by decide
  have hl : (((List.range 1001).map fun i => decide (i < 500)).length) = 1001 := by
    simp
  rw [hc, hl]
  norm_num

/-- C2 as frozen is false: with 1001 gradable answers of which 500 are
correct, the returned `prob_pass` is `round(500/1001, 3) = 0.5 ≥ 0.5`, yet
`pass` is `false` (the code tests the unrounded ratio). -/
theorem C2_counterexample :
    gradables (mkAnswers 1001 500) ≠ [] ∧
    (1 : ℚ)/2 ≤ (level2_technical (mkAnswers 1001 500)).prob_pass ∧
    (level2_technical (mkAnswers 1001 500)).pass = false := by
  have hg : gradables (mkAnswers 1001 500) ≠ [] := by
    rw [gradables_big]
    simp
  have heval := level2_eval (mkEntries 1001 500) (by decide)
    (fun h => hg (List.length_eq_zero.1 h))
  rw [show mkAnswers 1001 500 = .dict (mkEntries 1001 500) from rfl] at hg ⊢
  rw [heval]
  refine ⟨hg, ?_, ?_⟩
  · show (1 : ℚ)/2 ≤ round3 (gradableRatio (.dict (mkEntries 1001 500)))
    rw [show PyVal.dict (mkEntries 1001 500) = mkAnswers 1001 500 from rfl, ratio_big]
    norm_num [round3, round_eq]
  · show decide ((1 : ℚ)/2 ≤ gradableRatio (.dict (mkEntries 1001 500))) = false
    rw [show PyVal.dict (mkEntries 1001 500) = mkAnswers 1001 500 from rfl, ratio_big]
    exact decide_eq_false (by norm_num)

/-- C7: whenever the input is not a non-empty mapping or has no gradable
entry, Level 2 fails softly with `prob_pass = 0`. -/
theorem C7_soft_fail (v : PyVal) (h : gradables v = []) :
    (level2_technical v).pass = false ∧ (level2_technical v).prob_pass = 0 := by
  cases v with
  | dict m =>
    by_cases hm : m.isEmpty
    · simp only [level2_technical]
      rw [hm]
      exact ⟨rfl, rfl⟩
    · simp only [level2_technical]
      rw [Bool.not_eq_true] at hm
      rw [hm]
      simp only [Bool.false_eq_true, if_false]
      rw [if_pos (by rw [h]; rfl)]
      exact ⟨rfl, rfl⟩
  | str s => exact ⟨rfl, rfl⟩
  | bool b => exact ⟨rfl, rfl⟩
  | int n => exact ⟨rfl, rfl⟩
  | none => exact ⟨rfl, rfl⟩

/-- Witness for C7: a mapping whose single value carries no "correct" key. -/
theorem C7_witness :
    gradables (.dict [("q1", .int 3)]) = [] ∧
    (level2_technical (.dict [("q1", .int 3)])).pass = false ∧
    (level2_technical (.dict [("q1", .int 3)])).prob_pass = 0 :=
  have h : gradables (.dict [("q1", .int 3)]) = [] := by decide
  ⟨h, C7_soft_fail _ h⟩

/-- C8 (amended): increasing the gradable correct/total ratio never decreases
the returned `prob_pass` (monotone, but not strictly: rounding to three
decimals can merge distinct ratios). -/
theorem C8_monotone (m1 m2 : List (String × PyVal))
    (hm1 : m1 ≠ []) (hg1 : gradables (.dict m1) ≠ [])
    (hm2 : m2 ≠ []) (hg2 : gradables (.dict m2) ≠ [])
    (hr : gradableRatio (.dict m1) < gradableRatio (.dict m2)) :
    (level2_technical (.dict m1)).prob_pass ≤ (level2_technical (.dict m2)).prob_pass := by
  rw [level2_eval m1 (by simpa [List.isEmpty_iff] using hm1)
        (fun h => hg1 (List.length_eq_zero.1 h)),
      level2_eval m2 (by simpa [List.isEmpty_iff] using hm2)
        (fun h => hg2 (List.length_eq_zero.1 h))]
  exact round3_mono (le_of_lt hr)

/-- Witness for the amended C8 at two concrete inputs with ratios 0 and 1. -/
theorem C8_witness :
    (([("q1", PyVal.dict [("correct", PyVal.bool false)])] : List (String × PyVal)) ≠ [] ∧
     gradables (.dict [("q1", .dict [("correct", .bool false)])]) ≠ [] ∧
     ([("q1", PyVal.dict [("correct", PyVal.bool true)])] : List (String × PyVal)) ≠ [] ∧
     gradables (.dict [("q1", .dict [("correct", .bool true)])]) ≠ [] ∧
     gradableRatio (.dict [("q1", .dict [("correct", .bool false)])]) <
       gradableRatio (.dict [("q1", .dict [("correct", .bool true)])])) ∧
    (level2_technical (.dict [("q1", .dict [("correct", .bool false)])])).prob_pass ≤
      (level2_technical (.dict [("q1", .dict [("correct", .bool true)])])).prob_pass := by
  have hga : gradables (.dict [("q1", .dict [("correct", .bool false)])]) = [false] := by decide
  have hgb : gradables (.dict [("q1", .dict [("correct", .bool true)])]) = [true] := by decide
  have hra : gradableRatio (.dict [("q1", .dict [("correct", .bool false)])]) = 0 := by
    unfold gradableRatio
    rw [hga]
    norm_num
  have hrb : gradableRatio (.dict [("q1", .dict [("correct", .bool true)])]) = 1 := by
    unfold gradableRatio
    rw [hgb]
    norm_num
  have hr : gradableRatio (.dict [("q1", .dict [("correct", .bool false)])]) <
      gradableRatio (.dict [("q1", .dict [("correct", .bool true)])]) := by
    rw [hra, hrb]
    norm_num
  refine ⟨⟨by simp, by rw [hga]; simp, by simp, by rw [hgb]; simp, hr⟩, ?_⟩
  exact C8_monotone _ _ (by simp) (by rw [hga]; simp) (by simp) (by rw [hgb]; simp) hr

/-- C8 as frozen is false: the ratios 15/31 < 31/64 both round to 0.484, so
`prob_pass` does not strictly increase. -/
theorem C8_counterexample :
    gradableRatio (mkAnswers 31 15) < gradableRatio (mkAnswers 64 31) ∧
    ¬((level2_technical (mkAnswers 31 15)).prob_pass <
      (level2_technical (mkAnswers 64 31)).prob_pass) := by
  have hga : gradables (mkAnswers 31 15) = (List.range 31).map fun i => decide (i < 15) := by
    decide
  have hgb : gradables (mkAnswers 64 31) = (List.range 64).map fun i => decide (i < 31) := by
    decide
  have hra : gradableRatio (mkAnswers 31 15) = 15/31 := by
    unfold gradableRatio
    rw [hga, show (((List.range 31).map fun i => decide (i < 15)).count true) = 15 by decide,
        show (((List.range 31).map fun i => decide (i < 15)).length) = 31 by simp]
    norm_num
  have hrb : gradableRatio (mkAnswers 64 31) = 31/64 := by
    unfold gradableRatio
    rw [hgb, show (((List.range 64).map fun i => decide (i < 31)).count true) = 31 by decide,
        show (((List.range 64).map fun i => decide (i < 31)).length) = 64 by simp]
    norm_num
  have heva := level2_eval (mkEntries 31 15) (by decide)
    (by rw [show PyVal.dict (mkEntries 31 15) = mkAnswers 31 15 from rfl, hga]; simp)
  have hevb := level2_eval (mkEntries 64 31) (by decide)
    (by rw [show PyVal.dict (mkEntries 64 31) = mkAnswers 64 31 from rfl, hgb]; simp)
  constructor
  · rw [hra, hrb]
    norm_num
  · rw [show mkAnswers 31 15 = .dict (mkEntries 31 15) from rfl,
        show mkAnswers 64 31 = .dict (mkEntries 64 31) from rfl, heva, hevb]
    show ¬(round3 (gradableRatio (.dict (mkEntries 31 15))) <
           round3 (gradableRatio (.dict (mkEntries 64 31))))
    rw [show PyVal.dict (mkEntries 31 15) = mkAnswers 31 15 from rfl,
        show PyVal.dict (mkEntries 64 31) = mkAnswers 64 31 from rfl, hra, hrb]
    norm_num [round3, round_eq]

/-! ## Level 3 and guard theorems -/

/-- C5: on example 3 of the spec the scorer detects exactly the phases
{diagnose, contain, prevent}, no dimension hits, `flow = 3/4`,
`tradeoff = 0`, `stability = 0`, score `33.75`, and fails. -/
theorem C5_scenario_example :
    (phaseHits "We investigate the issue. We rollback the change. We monitor after.").dedup =
      ["diagnose", "contain", "prevent"] ∧
    dimHits "We investigate the issue. We rollback the change. We monitor after." = [] ∧
    flowQ "We investigate the issue. We rollback the change. We monitor after." = 3/4 ∧
    tradeoffQ "We investigate the issue. We rollback the change. We monitor after." = 0 ∧
    stabilityQ "We investigate the issue. We rollback the change. We monitor after." = 0 ∧
    level3_scenario (.str "We investigate the issue. We rollback the change. We monitor after.") =
      ⟨false, 135/4, "Weak scenario reasoning"⟩ := by
  have hph : (phaseHits "We investigate the issue. We rollback the change. We monitor after.").dedup =
      ["diagnose", "contain", "prevent"] := by decide
  have hdim : dimHits "We investigate the issue. We rollback the change. We monitor after." = [] := by
    decide
  have hflow : flowQ "We investigate the issue. We rollback the change. We monitor after." = 3/4 := by
    unfold flowQ
    rw [hph]
    norm_num [PHASES]
  have htr : tradeoffQ "We investigate the issue. We rollback the change. We monitor after." = 0 := by
    unfold tradeoffQ
    rw [hdim]
    rfl
  have hdom : dominanceQ "We investigate the issue. We rollback the change. We monitor after." = 1 := by
    unfold dominanceQ flatDims
    rw [hdim]
    rfl
  have hst : stabilityQ "We investigate the issue. We rollback the change. We monitor after." = 0 := by
    unfold stabilityQ
    rw [hdom]
    norm_num
  have hraw : l3RawScore "We investigate the issue. We rollback the change. We monitor after." =
      135/4 := by
    unfold l3RawScore
    rw [hflow, htr, hst]
    norm_num
  have hsteps : ¬((steps "We investigate the issue. We rollback the change. We monitor after.").length < 2) := by
    decide
  refine ⟨hph, hdim, hflow, htr, hst, ?_⟩
  simp only [level3_scenario]
  rw [if_neg hsteps, hraw]
  have hpass : ¬((75 : ℚ) ≤ 135/4) := by norm_num
  rw [if_neg hpass]
  have hsc : round2q (135/4) = 135/4 := by
    norm_num [round2q, round_eq]
  rw [hsc, decide_eq_false hpass]

/-- C10: the arithmetic guards — for Level 1 inputs past the 30-token gate
the argument of the logarithm exceeds 1 (so `log(total) > 0`), every counter value
is positive and the total is non-zero; for Level 3 the `tradeoff` and
`dominance` divisions only happen with non-zero denominators, with fallbacks
0 and 1.0, and the `flow` denominator is the constant 4. -/
theorem C10_guards :
    (∀ s : String, 30 ≤ (tokens s).length →
       1 < (countTotal (tokens s) : ℝ) ∧ 0 < Real.log (countTotal (tokens s) : ℝ) ∧
       (countTotal (tokens s) : ℝ) ≠ 0 ∧
       ∀ c ∈ countVals (tokens s), 0 < c) ∧
    (PHASES.length = 4 ∧ DIMENSIONS.length = 4) ∧
    (∀ a : String,
       (dimHits a = [] → tradeoffQ a = 0) ∧
       (dimHits a ≠ [] → (((dimHits a).length * DIMENSIONS.length : ℕ) : ℚ) ≠ 0) ∧
       (flatDims a = [] → dominanceQ a = 1) ∧
       (flatDims a ≠ [] → ((flatDims a).length : ℚ) ≠ 0)) := by
  refine ⟨fun s h => ?_, ⟨rfl, rfl⟩, fun a => ⟨?_, ?_, ?_, ?_⟩⟩
  · have htot : 30 ≤ countTotal (tokens s) := by
      rw [countTotal_eq_length]
      exact h
    have h1 : 1 < (countTotal (tokens s) : ℝ) := by
      have : (30 : ℝ) ≤ (countTotal (tokens s) : ℝ) := by exact_mod_cast htot
      linarith
    refine ⟨h1, Real.log_pos h1, by linarith, fun c hc => ?_⟩
    rcases List.mem_map.1 hc with ⟨t, ht, hct⟩
    rw [← hct]
    exact List.count_pos_iff.2 (List.mem_dedup.1 ht)
  · intro hd
    unfold tradeoffQ
    rw [hd]
    rfl
  · intro hd
    have : (dimHits a).length ≠ 0 := fun h => hd (List.length_eq_zero.1 h)
    exact Nat.cast_ne_zero.2 (Nat.mul_ne_zero this (by decide))
  · intro hf
    unfold dominanceQ
    rw [hf]
    rfl
  · intro hf
    exact Nat.cast_ne_zero.2 fun h => hf (List.length_eq_zero.1 h)

/-- Witness for C10 at concrete inputs on both sides. -/
theorem C10_witness :
    (30 ≤ (tokens w30Str).length ∧ 0 < Real.log (countTotal (tokens w30Str) : ℝ)) ∧
    (dimHits "We investigate. We monitor." = [] ∧ tradeoffQ "We investigate. We monitor." = 0) := by
  have h30 : 30 ≤ (tokens w30Str).length := by
    rw [w30_tokens_eq]
    decide
  have hd : dimHits "We investigate. We monitor." = [] := by decide
  exact ⟨⟨h30, (C10_guards.1 w30Str h30).2.1⟩,
         hd, (C10_guards.2.2 "We investigate. We monitor.").1 hd⟩

/-! ## Persistence-layer lemmas -/

theorem find?_append_some {α : Type} (p : α → Bool) (S T : List α) (x : α)
    (h : S.find? p = Option.some x) : (S ++ T).find? p = Option.some x := by
  induction S with
  | nil => simp [List.find?] at h
  | cons s S ih =>
    rw [List.cons_append]
    rw [List.find?] at h ⊢
    cases hp : p s with
    | true => rw [hp] at h; simpa [hp] using h
    | false => rw [hp] at h; simpa [hp] using ih h

theorem find?_append_none {α : Type} (p : α → Bool) (S T : List α)
    (h : S.find? p = Option.none) : (S ++ T).find? p = T.find? p := by
  induction S with
  | nil => simp
  | cons s S ih =>
    rw [List.cons_append, List.find?]
    rw [List.find?] at h
    cases hp : p s with
    | true => rw [hp] at h; cases h
    | false => rw [hp] at h; simpa [hp] using ih h

theorem find?_session_none (S : List SessionRow) (sid : Nat)
    (hS : ∀ s ∈ S, s.session_id ≠ sid) :
    S.find? (fun s => s.session_id == sid) = Option.none := by
  rw [List.find?_eq_none]
  intro s hs
  simpa using hS s hs

/-- Appending a row with the looked-up id behind rows that do not carry it
finds exactly that row. -/
theorem find?_session_append (S : List SessionRow) (row : SessionRow) (sid : Nat)
    (hS : ∀ s ∈ S, s.session_id ≠ sid) (hrow : row.session_id = sid) :
    (S ++ [row]).find? (fun s => s.session_id == sid) = Option.some row := by
  rw [find?_append_none _ _ _ (find?_session_none S sid hS), List.find?]
  simp [hrow]

/-- Lookup by session id commutes with mapping a session-id-preserving
function over the table. -/
theorem find?_map_preserve (S : List SessionRow) (sid : Nat) (g : SessionRow → SessionRow)
    (hg : ∀ s, (g s).session_id = s.session_id) :
    (S.map g).find? (fun s => s.session_id == sid) =
      (S.find? fun s => s.session_id == sid).map g := by
  induction S with
  | nil => rfl
  | cons s S ih =>
    rw [List.map_cons, List.find?, List.find?]
    by_cases h : s.session_id = sid
    · simp [hg, h]
    · have h1 : ((g s).session_id == sid) = false := by simp [hg, h]
      have h2 : (s.session_id == sid) = false := by simp [h]
      rw [h1, h2]
      exact ih

theorem filter_rounds_append (R new : List RoundRow) (sid : Nat)
    (hR : ∀ r ∈ R, r.session_id ≠ sid) :
    (R ++ new).filter (fun r => r.session_id == sid) =
      new.filter (fun r => r.session_id == sid) := by
  rw [List.filter_append, List.filter_eq_nil_iff.2 (by intro r hr; simpa using hR r hr)]
  rfl

theorem sessions_upsert (st : DBState) (fn em ph ro : String) (cid : Option Nat) :
    ((upsert_candidate st fn em ph ro cid).2).sessions = st.sessions := by
  unfold upsert_candidate
  split
  · split <;> rfl
  · rfl

theorem nextId_complete (st : DBState) (sid : Nat) (sc : ℝ) (dec : String) :
    (complete_session st sid sc dec).nextId = st.nextId := rfl

/-- C9: sessions are created `IN_PROGRESS` with null final fields, completed
exactly to `COMPLETED` with the final score, decision and a non-null
completion time, and no store operation ever moves the status of a
`COMPLETED` session back to `IN_PROGRESS`. -/
theorem C9_status_monotone :
    (∀ st : DBState, ∀ cid : Nat, WF st →
       getSession (create_session st cid).2 (create_session st cid).1 =
         Option.some ⟨st.nextId, cid, "IN_PROGRESS", Option.none, Option.none,
           st.nextId, Option.none⟩) ∧
    (∀ st : DBState, ∀ sid : Nat, ∀ sc : ℝ, ∀ dec : String, ∀ s0 : SessionRow,
       getSession st sid = Option.some s0 →
       getSession (complete_session st sid sc dec) sid =
         Option.some { s0 with
           status := "COMPLETED"
           final_score := Option.some sc
           final_decision := Option.some dec
           completed_at := Option.some st.nextId }) ∧
    (∀ st : DBState, ∀ op : DBOp, ∀ sid : Nat, ∀ s0 : SessionRow,
       getSession st sid = Option.some s0 → s0.status = "COMPLETED" →
       ∃ row, getSession (applyOp st op) sid = Option.some row ∧
         row.status = "COMPLETED") := by
  have hpres : ∀ (sid' : Nat) (sc : ℝ) (dec : String) (ts : Nat) (s : SessionRow),
      ((fun s : SessionRow => if s.session_id == sid' then
        { s with
          status := "COMPLETED"
          final_score := Option.some sc
          final_decision := Option.some dec
          completed_at := Option.some ts } else s) s).session_id = s.session_id := by
    intro sid' sc dec ts s
    by_cases h : s.session_id = sid' <;> simp [h]
  refine ⟨fun st cid hwf => ?_, fun st sid sc dec s0 h0 => ?_, fun st op sid s0 h0 hst => ?_⟩
  · unfold create_session getSession
    exact find?_session_append st.sessions _ st.nextId
      (fun s hs => Nat.ne_of_lt (hwf.1 s hs)) rfl
  · unfold getSession at h0 ⊢
    unfold complete_session
    rw [find?_map_preserve st.sessions sid _ (hpres sid sc dec st.nextId), h0]
    have hbeq := List.find?_some h0
    simp only [Option.map_some']
    rw [if_pos hbeq]
  · cases op with
    | upsert fn em ph ro cid =>
      refine ⟨s0, ?_, hst⟩
      show getSession (upsert_candidate st fn em ph ro cid).2 sid = Option.some s0
      unfold getSession
      rw [sessions_upsert]
      exact h0
    | createSession cid =>
      refine ⟨s0, ?_, hst⟩
      show getSession (create_session st cid).2 sid = Option.some s0
      unfold getSession at h0
      unfold getSession create_session
      exact find?_append_some _ _ _ _ h0
    | saveRound sid' rn ow q a r s pb t =>
      exact ⟨s0, h0, hst⟩
    | completeSession sid' sc dec =>
      show ∃ row, getSession (complete_session st sid' sc dec) sid = Option.some row ∧
        row.status = "COMPLETED"
      unfold getSession at h0 ⊢
      unfold complete_session
      rw [find?_map_preserve st.sessions sid _ (hpres sid' sc dec st.nextId), h0]
      by_cases h : s0.session_id = sid'
      · exact ⟨_, rfl, by simp [h]⟩
      · refine ⟨_, rfl, ?_⟩
        simp only [Option.map_some']
        rw [if_neg (by simpa using h)]
        exact hst

/-- Completing a freshly created session (no earlier row carries its id)
updates exactly its row. -/
theorem getSession_complete_fresh (st' : DBState) (sid : Nat) (sc : ℝ) (dec : String)
    (S : List SessionRow) (row : SessionRow)
    (hsess : st'.sessions = S ++ [row])
    (hS : ∀ s ∈ S, s.session_id ≠ sid) (hrow : row.session_id = sid) :
    getSession (complete_session st' sid sc dec) sid = Option.some
      { row with
        status := "COMPLETED"
        final_score := Option.some sc
        final_decision := Option.some dec
        completed_at := Option.some st'.nextId } := by
  unfold getSession complete_session
  show ((st'.sessions.map _).find? fun s : SessionRow => s.session_id == sid) = _
  rw [hsess]
  rw [find?_map_preserve _ sid _ (by
    intro s
    by_cases h : s.session_id = sid <;> simp [h])]
  rw [find?_session_append S row sid hS hrow]
  simp only [Option.map_some']
  rw [if_pos (by simp [hrow])]

theorem roundsFor_complete (st' : DBState) (sid sid' : Nat) (sc : ℝ) (dec : String) :
    roundsFor (complete_session st' sid' sc dec) sid = roundsFor st' sid := rfl

/-- C3: if Level 1 fails, the session is completed `REJECT` with the Level 1
score, the result reports the failure at level 1 without level2/level3, and
exactly one round row (round 1) is persisted for the session. -/
theorem C3_short_circuit (st : DBState) (p : Payload) (hwf : WF st)
    (h1 : (level1_screen p.resume_text).pass = false) :
    (evaluate_candidate st p).2.final_pass = false ∧
    (evaluate_candidate st p).2.failed_at = Option.some "level1" ∧
    (evaluate_candidate st p).2.level1 = Option.some (level1_screen p.resume_text) ∧
    (evaluate_candidate st p).2.level2 = Option.none ∧
    (evaluate_candidate st p).2.level3 = Option.none ∧
    (∃ row, getSession (evaluate_candidate st p).1 (evaluate_candidate st p).2.session_id =
        Option.some row ∧ row.status = "COMPLETED" ∧
        row.final_decision = Option.some "REJECT" ∧
        row.final_score = Option.some (level1_screen p.resume_text).score) ∧
    (roundsFor (evaluate_candidate st p).1 (evaluate_candidate st p).2.session_id).map
      RoundRow.round_no = [1] := by
  have hres : (evaluate_candidate st p).2 = ⟨false, Option.some "level1", Option.none,
      st.nextId + 1, Option.some (level1_screen p.resume_text), Option.none, Option.none⟩ := by
    simp [evaluate_candidate, upsert_candidate, create_session, save_round_result, h1]
  have hstate : (evaluate_candidate st p).1 = complete_session
      ⟨st.nextId + 3,
       st.candidates ++ [⟨st.nextId, p.full_name, p.email, p.phone, p.role, st.nextId⟩],
       st.sessions ++ [⟨st.nextId + 1, st.nextId, "IN_PROGRESS", Option.none, Option.none,
         st.nextId + 1, Option.none⟩],
       st.rounds ++ [⟨st.nextId + 2, st.nextId + 1, 1, "Interviewer L1", Option.none,
         "Resume Screening", p.resume_text, (level1_screen p.resume_text).score,
         (level1_screen p.resume_text).score, (level1_screen p.resume_text).pass, 60, [],
         Option.none, st.nextId + 2⟩]⟩
      (st.nextId + 1) (level1_screen p.resume_text).score "REJECT" := by
    simp [evaluate_candidate, upsert_candidate, create_session, save_round_result, h1]
  refine ⟨by rw [hres], by rw [hres], by rw [hres], by rw [hres], by rw [hres], ?_, ?_⟩
  · rw [hres, hstate]
    refine ⟨_, getSession_complete_fresh _ (st.nextId + 1) _ _ st.sessions _ rfl
      (fun s hs => Nat.ne_of_lt (Nat.lt_succ_of_lt (hwf.1 s hs))) rfl, rfl, rfl, rfl⟩
  · rw [hres, hstate, roundsFor_complete]
    show ((st.rounds ++ _).filter fun r => r.session_id == st.nextId + 1).map _ = _
    rw [filter_rounds_append _ _ _
      (fun r hr => Nat.ne_of_lt (Nat.lt_succ_of_lt (hwf.2 r hr)))]
    simp

/-- Witness for C3: the empty store and a payload whose resume is empty. -/
theorem C3_witness :
    (WF (⟨0, [], [], []⟩ : DBState) ∧
     (level1_screen (PyVal.str "")).pass = false) ∧
    (evaluate_candidate ⟨0, [], [], []⟩
        ⟨"Jo", "", "", "QA", .str "", .dict [], .str ""⟩).2.level2 = Option.none ∧
    (evaluate_candidate ⟨0, [], [], []⟩
        ⟨"Jo", "", "", "QA", .str "", .dict [], .str ""⟩).2.level3 = Option.none ∧
    (∃ row, getSession
        (evaluate_candidate ⟨0, [], [], []⟩ ⟨"Jo", "", "", "QA", .str "", .dict [], .str ""⟩).1
        (evaluate_candidate ⟨0, [], [], []⟩
          ⟨"Jo", "", "", "QA", .str "", .dict [], .str ""⟩).2.session_id =
        Option.some row ∧ row.status = "COMPLETED" ∧
        row.final_decision = Option.some "REJECT") ∧
    (roundsFor
        (evaluate_candidate ⟨0, [], [], []⟩ ⟨"Jo", "", "", "QA", .str "", .dict [], .str ""⟩).1
        (evaluate_candidate ⟨0, [], [], []⟩
          ⟨"Jo", "", "", "QA", .str "", .dict [], .str ""⟩).2.session_id).map
      RoundRow.round_no = [1] := by
  have hwf : WF (⟨0, [], [], []⟩ : DBState) := ⟨by simp, by simp⟩
  have h1 : (level1_screen (PyVal.str "")).pass = false := rfl
  have h := C3_short_circuit ⟨0, [], [], []⟩ ⟨"Jo", "", "", "QA", .str "", .dict [], .str ""⟩
    hwf h1
  exact ⟨⟨hwf, h1⟩, h.2.2.2.1, h.2.2.2.2.1,
    (h.2.2.2.2.2.1).imp fun row hr => ⟨hr.1, hr.2.1, hr.2.2.1⟩, h.2.2.2.2.2.2⟩

/-- C4: if Levels 1 and 2 pass, Level 3 is always evaluated and the session
is completed (HIRE on an L3 pass, HOLD otherwise) with the Level 3 score;
three round rows with rounds 1, 2, 3 and thresholds 60, 50, 75 are
persisted; the result carries all three level outputs. -/
theorem C4_full_run (st : DBState) (p : Payload) (hwf : WF st)
    (h1 : (level1_screen p.resume_text).pass = true)
    (h2 : (level2_technical p.technical_answers).pass = true) :
    (evaluate_candidate st p).2.level1 = Option.some (level1_screen p.resume_text) ∧
    (evaluate_candidate st p).2.level2 = Option.some (level2_technical p.technical_answers) ∧
    (evaluate_candidate st p).2.level3 = Option.some (level3_scenario p.scenario_answer) ∧
    (evaluate_candidate st p).2.decision =
      Option.some (if (level3_scenario p.scenario_answer).pass then "HIRE" else "HOLD") ∧
    (∃ row, getSession (evaluate_candidate st p).1 (evaluate_candidate st p).2.session_id =
        Option.some row ∧ row.status = "COMPLETED" ∧
        row.final_decision =
          Option.some (if (level3_scenario p.scenario_answer).pass then "HIRE" else "HOLD") ∧
        row.final_score = Option.some ((level3_scenario p.scenario_answer).score : ℝ)) ∧
    (roundsFor (evaluate_candidate st p).1 (evaluate_candidate st p).2.session_id).map
      (fun r => (r.round_no, r.threshold)) = [(1, 60), (2, 50), (3, 75)] := by
  have hres : (evaluate_candidate st p).2 = ⟨(level3_scenario p.scenario_answer).pass,
      Option.none,
      Option.some (if (level3_scenario p.scenario_answer).pass then "HIRE" else "HOLD"),
      st.nextId + 1,
      Option.some (level1_screen p.resume_text),
      Option.some (level2_technical p.technical_answers),
      Option.some (level3_scenario p.scenario_answer)⟩ := by
    simp [evaluate_candidate, upsert_candidate, create_session, save_round_result, h1, h2]
  have hstate : (evaluate_candidate st p).1 = complete_session
      ⟨st.nextId + 5,
       st.candidates ++ [⟨st.nextId, p.full_name, p.email, p.phone, p.role, st.nextId⟩],
       st.sessions ++ [⟨st.nextId + 1, st.nextId, "IN_PROGRESS", Option.none, Option.none,
         st.nextId + 1, Option.none⟩],
       st.rounds ++
         [⟨st.nextId + 2, st.nextId + 1, 1, "Interviewer L1", Option.none,
           "Resume Screening", p.resume_text, (level1_screen p.resume_text).score,
           (level1_screen p.resume_text).score, (level1_screen p.resume_text).pass, 60, [],
           Option.none, st.nextId + 2⟩,
          ⟨st.nextId + 3, st.nextId + 1, 2, "Interviewer L2", Option.none,
           "Technical Evaluation", p.technical_answers,
           ((level2_technical p.technical_answers).prob_pass : ℝ) * 100,
           ((level2_technical p.technical_answers).prob_pass : ℝ) * 100,
           (level2_technical p.technical_answers).pass, 50, [], Option.none, st.nextId + 3⟩,
          ⟨st.nextId + 4, st.nextId + 1, 3, "Interviewer L3", Option.none,
           "Scenario-Based Reasoning", p.scenario_answer,
           ((level3_scenario p.scenario_answer).score : ℝ),
           ((level3_scenario p.scenario_answer).score : ℝ),
           (level3_scenario p.scenario_answer).pass, 75, [], Option.none, st.nextId + 4⟩]⟩
      (st.nextId + 1) ((level3_scenario p.scenario_answer).score : ℝ)
      (if (level3_scenario p.scenario_answer).pass then "HIRE" else "HOLD") := by
    simp [evaluate_candidate, upsert_candidate, create_session, save_round_result, h1, h2]
  refine ⟨by rw [hres], by rw [hres], by rw [hres], by rw [hres], ?_, ?_⟩
  · rw [hres, hstate]
    refine ⟨_, getSession_complete_fresh _ (st.nextId + 1) _ _ st.sessions _ rfl
      (fun s hs => Nat.ne_of_lt (Nat.lt_succ_of_lt (hwf.1 s hs))) rfl, rfl, rfl, rfl⟩
  · rw [hres, hstate, roundsFor_complete]
    show ((st.rounds ++ _).filter fun r => r.session_id == st.nextId + 1).map _ = _
    rw [filter_rounds_append _ _ _
      (fun r hr => Nat.ne_of_lt (Nat.lt_succ_of_lt (hwf.2 r hr)))]
    simp

/-- Witness for C4: empty store, the 30-distinct-word resume, one correct
technical answer, empty scenario answer (Level 3 fails, so the decision is
HOLD). -/
theorem C4_witness :
    (WF (⟨0, [], [], []⟩ : DBState) ∧
     (level1_screen (.str w30Str)).pass = true ∧
     (level2_technical ex2Answers).pass = true) ∧
    (evaluate_candidate ⟨0, [], [], []⟩
        ⟨"A", "", "", "R", .str w30Str, ex2Answers, .str ""⟩).2.level3 =
      Option.some (level3_scenario (.str "")) ∧
    (∃ row, getSession
        (evaluate_candidate ⟨0, [], [], []⟩
          ⟨"A", "", "", "R", .str w30Str, ex2Answers, .str ""⟩).1
        (evaluate_candidate ⟨0, [], [], []⟩
          ⟨"A", "", "", "R", .str w30Str, ex2Answers, .str ""⟩).2.session_id =
        Option.some row ∧ row.status = "COMPLETED") ∧
    (roundsFor
        (evaluate_candidate ⟨0, [], [], []⟩
          ⟨"A", "", "", "R", .str w30Str, ex2Answers, .str ""⟩).1
        (evaluate_candidate ⟨0, [], [], []⟩
          ⟨"A", "", "", "R", .str w30Str, ex2Answers, .str ""⟩).2.session_id).map
      (fun r => (r.round_no, r.threshold)) = [(1, 60), (2, 50), (3, 75)] := by
  have hwf : WF (⟨0, [], [], []⟩ : DBState) := ⟨by simp, by simp⟩
  have h2 : (level2_technical ex2Answers).pass = true := by
    have he := level2_eval [("q1", .dict [("correct", .bool true)]),
      ("q2", .dict [("correct", .bool false)])] (by decide)
      (by rw [show PyVal.dict [("q1", .dict [("correct", .bool true)]),
          ("q2", .dict [("correct", .bool false)])] = ex2Answers from rfl, gradables_ex2]; simp)
    rw [show ex2Answers = PyVal.dict [("q1", .dict [("correct", .bool true)]),
        ("q2", .dict [("correct", .bool false)])] from rfl, he]
    show decide ((1 : ℚ)/2 ≤ gradableRatio ex2Answers) = true
    rw [ratio_ex2]
    exact decide_eq_true (by norm_num)
  have h := C4_full_run ⟨0, [], [], []⟩ ⟨"A", "", "", "R", .str w30Str, ex2Answers, .str ""⟩
    hwf w30_pass h2
  exact ⟨⟨hwf, w30_pass, h2⟩, h.2.2.1,
    (h.2.2.2.2.1).imp fun row hr => ⟨hr.1, hr.2.1⟩, h.2.2.2.2.2⟩

/-- Witness for C9: a concrete create / complete / further-operation run. -/
theorem C9_witness :
    (WF (⟨0, [], [], []⟩ : DBState) ∧
     getSession (create_session ⟨0, [], [], []⟩ 42).2 (create_session ⟨0, [], [], []⟩ 42).1 =
       Option.some ⟨0, 42, "IN_PROGRESS", Option.none, Option.none, 0, Option.none⟩) ∧
    getSession (complete_session (create_session ⟨0, [], [], []⟩ 42).2 0 50 "HIRE") 0 =
      Option.some ⟨0, 42, "COMPLETED", Option.some 50, Option.some "HIRE", 0, Option.some 1⟩ ∧
    (∃ row, getSession (applyOp (complete_session (create_session ⟨0, [], [], []⟩ 42).2 0 50 "HIRE")
        (.createSession 7)) 0 = Option.some row ∧ row.status = "COMPLETED") := by
  have hwf : WF (⟨0, [], [], []⟩ : DBState) := ⟨by simp, by simp⟩
  have h1 := C9_status_monotone.1 ⟨0, [], [], []⟩ 42 hwf
  have h0 : getSession (create_session ⟨0, [], [], []⟩ 42).2 0 =
      Option.some ⟨0, 42, "IN_PROGRESS", Option.none, Option.none, 0, Option.none⟩ := h1
  have h2 := C9_status_monotone.2.1 (create_session ⟨0, [], [], []⟩ 42).2 0 50 "HIRE" _ h0
  have h3 := C9_status_monotone.2.2
    (complete_session (create_session ⟨0, [], [], []⟩ 42).2 0 50 "HIRE")
    (.createSession 7) 0 _ h2 rfl
  exact ⟨⟨hwf, h1⟩, h2, h3⟩
